import Mathlib

/-!
# Verification of `whisper-gui.py`

A shallow embedding of the single source file `whisper-gui.py`: a minimal
desktop utility that picks an audio file, runs an external speech-to-text
model on it, and writes the transcript to a sibling `.txt` file.

Modelling decisions:
* The external Whisper model (`whisper.load_model(...).transcribe(...)`) is
  not part of this repository; it is modelled as an explicit function
  argument from an audio path to either a structured transcription result
  or a raised exception (`Except String`).
* Python exceptions are modelled with `Except String`; the exception
  message is the carried string.
* The filesystem is an association list from paths to file contents; a
  write in mode "w" prepends, so a later lookup sees the newest content
  (overwrite semantics).
* GUI dialogs (`messagebox.showinfo` / `messagebox.showerror`) are recorded
  as an event list; the Tk window itself carries no state the claims need.
* Python floats (segment start and stop times) are modelled as rationals;
  the `%.2f` format is implemented digit by digit on the rational.
-/

/-- A transcription segment as reported by the model: start time, end time
(seconds) and the text spoken in that span.  Mirrors the dictionaries in
`result["segments"]`. -/
structure Segment where
  start : ℚ
  «end» : ℚ
  text : String
deriving DecidableEq, Repr

/-- The structured result of `model.transcribe(...)`: a full-text string
under key `"text"` and, when the key `"segments"` is present, an ordered
list of segments.  `Option` models presence of the `"segments"` key. -/
structure TranscriptionResult where
  text : String
  segments : Option (List Segment)
deriving DecidableEq, Repr

/-- Module-level configuration constant `MODEL_NAME` (line 23). -/
def MODEL_NAME : String := "turbo"

/-- Module-level configuration constant `ENABLE_TIMESTAMPS` (line 24).
The theorems below take the timestamp flag as an explicit parameter to
cover both settings of this edit-time constant. -/
def ENABLE_TIMESTAMPS : Bool := true

/-- Python `str.strip()` on a string, restricted to ASCII whitespace:
drop whitespace from the front, then from the back. -/
def strip (s : String) : String :=
  ⟨((s.data.dropWhile Char.isWhitespace).reverse.dropWhile Char.isWhitespace).reverse⟩

/-- Decimal rendering of a natural number, as Python `str` / `format` do.
`Nat.toDigits 10 n` is the list of decimal digit characters of `n`. -/
def natRepr (n : ℕ) : String := ⟨Nat.toDigits 10 n⟩

/-- Rendering of an integer number of hundredths as a fixed-point decimal
with exactly two fractional digits and a leading `-` when negative. -/
def fmt2i (n : ℤ) : String :=
  (if n < 0 then "-" else "") ++ natRepr (n.natAbs / 100) ++ "." ++
    (if n.natAbs % 100 < 10 then "0" else "") ++ natRepr (n.natAbs % 100)

/-- Python `f"{x:.2f}"`, modelled on rationals: the value is scaled by 100
and rounded to an integer (half towards positive infinity; the claims do
not depend on the tie-breaking direction), then printed with exactly two
fractional digits.  `Int.fdiv (200 * q.num + q.den) (2 * q.den)` is the
floor of `q * 100 + 1/2`. -/
def fmt2 (q : ℚ) : String :=
  fmt2i (Int.fdiv (200 * q.num + (q.den : ℤ)) (2 * (q.den : ℤ)))

/-- One formatted transcript line,
`f"[{start_time:.2f} - {end_time:.2f}] {text_segment}"` with
`text_segment = seg["text"].strip()` (lines 51-54). -/
def segment_str (seg : Segment) : String :=
  "[" ++ fmt2 seg.start ++ " - " ++ fmt2 seg.«end» ++ "] " ++ strip seg.text

/-- Python `"\n".join(lines)` (line 56). -/
def newline_join : List String → String
  | [] => ""
  | [s] => s
  | s :: rest => s ++ "\n" ++ newline_join rest

/-- `transcribe_audio` (lines 38-59), applied to the result the model
returned for the audio file.  If timestamps are enabled and the result
carries a `"segments"` key, one line per segment is built and the lines
are joined with newlines; otherwise the full text is returned. -/
def transcribe_audio (enable_timestamps : Bool) (result : TranscriptionResult) : String :=
  match enable_timestamps, result.segments with
  | true, some segs => newline_join (segs.map segment_str)
  | true, none => result.text
  | false, _ => result.text

/-- `transcribe_audio` including the external model call (line 44-45): the
model is an explicit function from the audio path to a result or a raised
exception, whose failure propagates out of the adapter. -/
def transcribe_audio_file (enable_timestamps : Bool)
    (model' : String → Except String TranscriptionResult)
    (audio_path : String) : Except String String :=
  (model' audio_path).map (transcribe_audio enable_timestamps)

/-- Number of lines of a (nonempty) text: one more than the number of
newline characters it contains. -/
def countLines (s : String) : ℕ := s.data.count '\n' + 1

/-- Python `str.rfind` on a list of characters: the index of the last
occurrence of `c`, or `-1` when absent. -/
def rfind : List Char → Char → ℤ
  | [], _ => -1
  | a :: as, c =>
    let r := rfind as c
    if 0 ≤ r then r + 1 else if a = c then 0 else -1

/-- `os.path.splitext` (POSIX flavour), as called on line 78.  The path is
split at the last `.` that lies after the last `/`, unless every character
of the final component up to that dot is itself a dot (so `.bashrc` keeps
no extension); otherwise the extension is empty. -/
def splitext (p : String) : String × String :=
  let data := p.data
  let sepIndex := rfind data '/'
  let dotIndex := rfind data '.'
  if sepIndex < dotIndex then
    let filename := (data.drop (sepIndex + 1).toNat).take (dotIndex - (sepIndex + 1)).toNat
    if filename.all (· = '.') then (p, "")
    else (⟨data.take dotIndex.toNat⟩, ⟨data.drop dotIndex.toNat⟩)
  else (p, "")

/-- Output filename derivation (lines 78-79): same name, `.txt` extension. -/
def output_path (audio_path : String) : String :=
  (splitext audio_path).1 ++ ".txt"

/-- The directory part of a path: everything up to and including the last
`/` (empty when the path has no separator).  Used to state that the output
file lands in the same directory as the input. -/
def dirOf (p : String) : String :=
  ⟨p.data.take (rfind p.data '/' + 1).toNat⟩

/-- The filesystem as an association list from paths to contents; a write
prepends, so `fsRead` sees the newest write for a path. -/
def FS := List (String × String)

/-- Look a path up in the filesystem. -/
def fsRead (fs : FS) (p : String) : Option String :=
  ((fs : List (String × String)).find? (fun e => e.1 = p)).map (·.2)

/-- `open(path, "w")` followed by `f.write(contents)` (lines 81-82):
creates or silently overwrites the file at `path`. -/
def fsWrite (fs : FS) (p contents : String) : FS :=
  ((p, contents) :: fs : List (String × String))

/-- A modal dialog shown to the user (`messagebox.showinfo` /
`messagebox.showerror`), recorded with its title and message. -/
inductive GuiEvent where
  | showinfo (title msg : String)
  | showerror (title msg : String)
deriving DecidableEq, Repr

/-- The "please wait" notice shown on line 74. -/
def transcribing_msg : String := "Please wait while the file is transcribed..."

/-- `select_file_and_transcribe` (lines 61-86), the button callback.
Inputs that the outside world supplies are explicit arguments: the file
dialog result `audio_path` (`""` on cancel, as `askopenfilename` returns),
the external model `model'` (which may raise), and a possible exception
from opening or writing the output file (`write_err`).  Returns the final
filesystem and the list of dialogs shown.  The `try`/`except` of lines
73-86 shows any raised exception message as an error dialog; no exception
escapes, so the function is total and always returns to the idle state. -/
def select_file_and_transcribe (audio_path : String)
    (model' : String → Except String TranscriptionResult)
    (write_err : Option String) (enable_timestamps : Bool)
    (fs : FS) : FS × List GuiEvent :=
  if audio_path = "" then (fs, [])
  else
    match transcribe_audio_file enable_timestamps model' audio_path with
    | .error e =>
        (fs, [GuiEvent.showinfo "Transcribing" transcribing_msg,
              GuiEvent.showerror "Error" e])
    | .ok transcript =>
        match write_err with
        | some e =>
            (fs, [GuiEvent.showinfo "Transcribing" transcribing_msg,
                  GuiEvent.showerror "Error" e])
        | none =>
            (fsWrite fs (output_path audio_path) transcript,
             [GuiEvent.showinfo "Transcribing" transcribing_msg,
              GuiEvent.showinfo "Success"
                ("Transcription saved to:\n" ++ output_path audio_path)])

/-- The usage text printed by `print_help` (lines 26-36). -/
def help_text : String :=
  "Usage: whisper_gui.py [--help]\n\nNo command-line arguments are needed for GUI operation:\n1. Double-click or run `python whisper_gui.py`.\n2. A file dialog will prompt you to select an audio file.\n3. The transcript will be written to the same folder with a .txt extension.\n"

/-- Outcome of `main`: either the help text was printed and the process
exited with the given status before any window was created, or the Tk
window was built and the GUI event loop entered. -/
inductive MainResult where
  | helpExit (printed : String) (status : ℕ)
  | gui
deriving DecidableEq, Repr

/-- `main` (lines 88-105): if the exact token `--help` occurs anywhere in
`sys.argv`, print the usage text (Python `print` appends a newline) and
exit with status 0; otherwise build the window and run the event loop.
`argv` includes the program name in position 0, as `sys.argv` does.
(Named `main'` because Lean reserves `main` for an executable entry
point.) -/
def main' (argv : List String) : MainResult :=
  if "--help" ∈ argv then MainResult.helpExit (help_text ++ "\n") 0
  else MainResult.gui

/-- C2: when timestamp mode is off, or the result carries no `"segments"`
key, the adapter returns the full-text field verbatim. -/
theorem flat_output_verbatim (b : Bool) (r : TranscriptionResult)
    (h : b = false ∨ r.segments = none) :
    transcribe_audio b r = r.text := by
  obtain ⟨t, s⟩ := r
  rcases h with h | h
  · subst h
    cases s <;> rfl
  · simp only at h
    subst h
    cases b <;> rfl

/-- Witness for C2 at a concrete result with timestamp mode off. -/
theorem flat_output_verbatim_witness :
    transcribe_audio false ⟨"full text", some [⟨0, 1, "hi"⟩]⟩ = "full text" :=
  flat_output_verbatim false ⟨"full text", some [⟨0, 1, "hi"⟩]⟩ (Or.inl rfl)

/-- C9: with timestamps enabled, a present-but-empty segment list yields
the empty string, not the full text; the flat-text fallback fires only
when the `"segments"` key is absent. -/
theorem empty_segments_not_fallback (t : String) :
    transcribe_audio true ⟨t, some []⟩ = "" ∧
    transcribe_audio true ⟨t, none⟩ = t :=
  ⟨rfl, rfl⟩

/-- C7: the adapter is a pure function of the model's answer: two
invocations on the same path and configuration in which the external model
returns the same result produce byte-identical output. -/
theorem adapter_deterministic (ts : Bool) (p : String)
    (m1 m2 : String → Except String TranscriptionResult) (h : m1 p = m2 p) :
    transcribe_audio_file ts m1 p = transcribe_audio_file ts m2 p := by
  unfold transcribe_audio_file
  rw [h]

/-- Witness for C7: two syntactically different models that agree on the
given path yield the same adapter output. -/
theorem adapter_deterministic_witness :
    transcribe_audio_file true (fun _ => Except.ok ⟨"x", none⟩) "a.mp3" =
      transcribe_audio_file true
        (fun q => if q = "a.mp3" then Except.ok ⟨"x", none⟩ else Except.error "missing")
        "a.mp3" :=
  adapter_deterministic true "a.mp3" _ _ rfl

/-- C6: a cancelled file dialog (empty path) short-circuits: the
filesystem is untouched, no dialog is shown, and the result does not
depend on the model or write outcome, so no transcription is invoked. -/
theorem cancel_is_silent (model' : String → Except String TranscriptionResult)
    (write_err : Option String) (ts : Bool) (fs : FS) :
    select_file_and_transcribe "" model' write_err ts fs = (fs, []) :=
  rfl

/-- C5: the exact token `--help` anywhere in `argv` prints the usage text
and exits with status 0 before any window is created; without it the GUI
is launched whatever the other arguments are. -/
theorem help_flag (argv : List String) :
    ("--help" ∈ argv → main' argv = MainResult.helpExit (help_text ++ "\n") 0) ∧
    ("--help" ∉ argv → main' argv = MainResult.gui) := by
  constructor <;> intro h <;> simp [main', h]

/-- Witness for C5: `--help` exits with the usage text and status 0, while
the short form `-h` is not recognized and launches the GUI. -/
theorem help_flag_witness :
    main' ["whisper_gui.py", "--help"] = MainResult.helpExit (help_text ++ "\n") 0 ∧
    main' ["whisper_gui.py", "-h"] = MainResult.gui :=
  ⟨(help_flag ["whisper_gui.py", "--help"]).1 (by decide),
   (help_flag ["whisper_gui.py", "-h"]).2 (by decide)⟩

/-- C4: every exception raised in the button callback (from the model call
or from the output write) is caught at the outermost level and shown as an
`Error` dialog carrying the exception message; the handler is a total
function, so it always returns normally to the idle state. -/
theorem handler_catches_all (audio_path : String) (hne : audio_path ≠ "")
    (model' : String → Except String TranscriptionResult)
    (write_err : Option String) (ts : Bool) (fs : FS) :
    (∀ e, model' audio_path = Except.error e →
      select_file_and_transcribe audio_path model' write_err ts fs =
        (fs, [GuiEvent.showinfo "Transcribing" transcribing_msg,
              GuiEvent.showerror "Error" e])) ∧
    (∀ t e, transcribe_audio_file ts model' audio_path = Except.ok t →
      write_err = some e →
      select_file_and_transcribe audio_path model' write_err ts fs =
        (fs, [GuiEvent.showinfo "Transcribing" transcribing_msg,
              GuiEvent.showerror "Error" e])) := by
  constructor
  · intro e he
    simp [select_file_and_transcribe, hne, transcribe_audio_file, he, Except.map]
  · intro t e ht hw
    simp [select_file_and_transcribe, hne, ht, hw]

/-- Witness for C4 at a concrete failing model. -/
theorem handler_catches_all_witness :
    select_file_and_transcribe "a.mp3" (fun _ => Except.error "boom") none true [] =
      ([], [GuiEvent.showinfo "Transcribing" transcribing_msg,
            GuiEvent.showerror "Error" "boom"]) :=
  (handler_catches_all "a.mp3" (by decide) (fun _ => Except.error "boom")
    none true []).1 "boom" rfl

/-- C10: if the model call raises, the handler never reaches the output
write, so the filesystem is returned unchanged. -/
theorem adapter_error_leaves_fs (audio_path : String) (hne : audio_path ≠ "")
    (model' : String → Except String TranscriptionResult)
    (write_err : Option String) (ts : Bool) (fs : FS) (e : String)
    (he : model' audio_path = Except.error e) :
    (select_file_and_transcribe audio_path model' write_err ts fs).1 = fs := by
  simp [select_file_and_transcribe, hne, transcribe_audio_file, he, Except.map]

/-- Witness for C10 at a concrete failing model and a nonempty
filesystem. -/
theorem adapter_error_leaves_fs_witness :
    (select_file_and_transcribe "a.mp3" (fun _ => Except.error "boom") none true
      [("a.txt", "old")]).1 = [("a.txt", "old")] :=
  adapter_error_leaves_fs "a.mp3" (by decide) (fun _ => Except.error "boom")
    none true [("a.txt", "old")] "boom" rfl

/-- C8: the whole callback writes at most the derived output path; any
other path reads back unchanged, in every branch (cancel, model failure,
write failure, success).  In particular the adapter stage itself performs
no file write. -/
theorem callback_writes_only_output_path (audio_path : String)
    (model' : String → Except String TranscriptionResult)
    (write_err : Option String) (ts : Bool) (fs : FS) (q : String)
    (hq : q ≠ output_path audio_path) :
    fsRead (select_file_and_transcribe audio_path model' write_err ts fs).1 q =
      fsRead fs q := by
  unfold select_file_and_transcribe
  split
  · rfl
  · split
    · rfl
    · cases write_err with
      | some e => rfl
      | none =>
        have hq' : (decide (output_path audio_path = q)) = false :=
          decide_eq_false fun h => hq h.symm
        simp [fsRead, fsWrite, List.find?, hq']

/-- Witness for C8: a path different from the output path is unchanged by
a successful run. -/
theorem callback_writes_only_output_path_witness :
    fsRead (select_file_and_transcribe "a.mp3" (fun _ => Except.ok ⟨"x", none⟩)
      none true [("other.txt", "keep")]).1 "other.txt" = some "keep" :=
  callback_writes_only_output_path "a.mp3" (fun _ => Except.ok ⟨"x", none⟩)
    none true [("other.txt", "keep")] "other.txt" (by decide)

/-- Membership in the characters of a concatenation. -/
theorem mem_data_append (c : Char) (a b : String) :
    c ∈ (a ++ b).data ↔ c ∈ a.data ∨ c ∈ b.data := by
  simp [String.data_append]

/-- `Nat.digitChar` never yields a newline. -/
theorem digitChar_ne_newline (n : ℕ) : Nat.digitChar n ≠ '\n' := by
  by_cases h16 : n < 16
  · interval_cases n <;> decide
  · have hstar : Nat.digitChar n = '*' := by
      unfold Nat.digitChar
      repeat rw [if_neg (by omega)]
    rw [hstar]
    decide

/-- `Nat.toDigitsCore` only prepends digit characters, so it preserves
newline-freedom of the accumulator. -/
theorem toDigitsCore_ne_newline (f : ℕ) :
    ∀ (n : ℕ) (ds : List Char), (∀ c ∈ ds, c ≠ '\n') →
      ∀ c ∈ Nat.toDigitsCore 10 f n ds, c ≠ '\n' := by
  induction f with
  | zero =>
    intro n ds h c hc
    exact h c hc
  | succ f ih =>
    intro n ds h c hc
    rw [Nat.toDigitsCore] at hc
    by_cases h10 : n / 10 = 0
    · simp only [h10, if_pos] at hc
      rcases List.mem_cons.mp hc with hc | hc
      · exact hc ▸ digitChar_ne_newline _
      · exact h c hc
    · simp only [h10, if_neg, if_false] at hc
      refine ih (n / 10) (Nat.digitChar (n % 10) :: ds) ?_ c hc
      intro d hd
      rcases List.mem_cons.mp hd with hd | hd
      · exact hd ▸ digitChar_ne_newline _
      · exact h d hd

/-- The decimal rendering of a natural number contains no newline. -/
theorem natRepr_ne_newline (n : ℕ) : '\n' ∉ (natRepr n).data := by
  intro h
  exact toDigitsCore_ne_newline (n + 1) n [] (by simp) '\n' h rfl

/-- The decimal rendering of a natural number contains no newline, in
counting form. -/
theorem natRepr_count_nl (n : ℕ) : (natRepr n).data.count '\n' = 0 :=
  List.count_eq_zero.mpr (natRepr_ne_newline n)

/-- A fixed-point two-decimal rendering contains no newline. -/
theorem fmt2i_count_nl (n : ℤ) : (fmt2i n).data.count '\n' = 0 := by
  simp only [fmt2i, String.data_append, List.count_append, natRepr_count_nl]
  split <;> split <;> decide

/-- A two-decimal rendering contains no newline. -/
theorem fmt2_count_nl (q : ℚ) : (fmt2 q).data.count '\n' = 0 :=
  fmt2i_count_nl _

/-- A formatted segment line contains no newline, provided the stripped
segment text does not. -/
theorem segment_str_count_nl (seg : Segment)
    (h : '\n' ∉ (strip seg.text).data) :
    (segment_str seg).data.count '\n' = 0 := by
  have h5 : (strip seg.text).data.count '\n' = 0 := List.count_eq_zero.mpr h
  simp only [segment_str, String.data_append, List.count_append,
    fmt2_count_nl, h5]
  decide

/-- Joining a nonempty list of newline-free strings with `"\n"` yields a
text with exactly one line per list element. -/
theorem countLines_newline_join (l : List String) (hne : l ≠ [])
    (h : ∀ s ∈ l, '\n' ∉ s.data) :
    countLines (newline_join l) = l.length := by
  induction l with
  | nil => exact absurd rfl hne
  | cons a rest ih =>
    cases rest with
    | nil =>
      have ha : a.data.count '\n' = 0 :=
        List.count_eq_zero.mpr (h a (by simp))
      simp [newline_join, countLines, ha]
    | cons b rest' =>
      have ih' := ih (by simp) (fun s hs => h s (List.mem_cons_of_mem a hs))
      have ha : a.data.count '\n' = 0 :=
        List.count_eq_zero.mpr (h a (by simp))
      have hjoin : newline_join (a :: b :: rest') =
          a ++ "\n" ++ newline_join (b :: rest') := rfl
      have hnl : (("\n" : String).data.count '\n') = 1 := by decide
      unfold countLines at ih' ⊢
      rw [hjoin, String.data_append, String.data_append, List.count_append,
        List.count_append, ha, hnl]
      simp only [List.length_cons] at ih' ⊢
      omega

/-- C1: with timestamps enabled and segments present, the adapter output
is the newline-join of one formatted line per segment, each line being
`[start.2f - end.2f] stripped-text`; when the (stripped) segment texts
contain no newline themselves and there is at least one segment, the
output therefore has exactly one line per segment. -/
theorem timestamped_output_shape (r : TranscriptionResult)
    (segs : List Segment) (hseg : r.segments = some segs) (hne : segs ≠ [])
    (hnl : ∀ seg ∈ segs, '\n' ∉ (strip seg.text).data) :
    transcribe_audio true r = newline_join (segs.map segment_str) ∧
    (∀ seg ∈ segs, segment_str seg =
      "[" ++ fmt2 seg.start ++ " - " ++ fmt2 seg.«end» ++ "] " ++ strip seg.text) ∧
    countLines (transcribe_audio true r) = segs.length := by
  obtain ⟨t, s⟩ := r
  have hs : s = some segs := hseg
  subst hs
  refine ⟨rfl, fun seg _ => rfl, ?_⟩
  show countLines (newline_join (segs.map segment_str)) = segs.length
  have hmap_ne : segs.map segment_str ≠ [] := by simpa using hne
  have hmap_nl : ∀ line ∈ segs.map segment_str, '\n' ∉ line.data := by
    intro line hline
    obtain ⟨seg, hmem, rfl⟩ := List.mem_map.mp hline
    exact List.count_eq_zero.mp (segment_str_count_nl seg (hnl seg hmem))
  rw [countLines_newline_join _ hmap_ne hmap_nl, List.length_map]

/-- Witness for C1: a concrete two-segment result yields exactly two
lines. -/
theorem timestamped_output_shape_witness :
    countLines (transcribe_audio true
      ⟨"full", some [⟨0, 1, "hi"⟩, ⟨1, 2, " yo "⟩]⟩) = 2 :=
  (timestamped_output_shape ⟨"full", some [⟨0, 1, "hi"⟩, ⟨1, 2, " yo "⟩]⟩
    [⟨0, 1, "hi"⟩, ⟨1, 2, " yo "⟩] rfl (by simp) (by
      intro seg hs
      rcases List.mem_cons.mp hs with h | hs2
      · subst h; decide
      · rcases List.mem_cons.mp hs2 with h | hs3
        · subst h; decide
        · exact absurd hs3 (by simp))).2.2

/-- Unfolding equation for `rfind` on a cons cell. -/
theorem rfind_cons (a : Char) (as : List Char) (c : Char) :
    rfind (a :: as) c =
      if 0 ≤ rfind as c then rfind as c + 1
      else if a = c then 0 else -1 := rfl

/-- `rfind` is never below `-1`. -/
theorem neg_one_le_rfind (l : List Char) (c : Char) : -1 ≤ rfind l c := by
  induction l with
  | nil => simp [rfind]
  | cons a as ih =>
    rw [rfind_cons]
    split
    · omega
    · split <;> omega

/-- `rfind` is always below the length of the list. -/
theorem rfind_lt_length (l : List Char) (c : Char) :
    rfind l c < (l.length : ℤ) := by
  induction l with
  | nil => simp [rfind]
  | cons a as ih =>
    rw [rfind_cons]
    simp only [List.length_cons]
    split
    · push_cast
      omega
    · split <;> (push_cast; omega)

/-- `rfind` finds an index exactly when the character occurs. -/
theorem zero_le_rfind_iff (l : List Char) (c : Char) :
    0 ≤ rfind l c ↔ c ∈ l := by
  induction l with
  | nil => simp [rfind]
  | cons a as ih =>
    rw [rfind_cons]
    simp only [List.mem_cons]
    split
    · rename_i h0
      constructor
      · intro _
        exact Or.inr (ih.mp h0)
      · intro _
        omega
    · rename_i h0
      have hna : c ∉ as := fun hc => h0 (ih.mpr hc)
      split
      · rename_i hac
        constructor
        · intro _
          exact Or.inl hac.symm
        · intro _
          exact le_refl 0
      · rename_i hac
        constructor
        · intro hfalse
          omega
        · intro hor
          rcases hor with h1 | h2
          · exact absurd h1.symm hac
          · exact absurd h2 hna

/-- `rfind` of an absent character is `-1`. -/
theorem rfind_of_not_mem (l : List Char) (c : Char) (h : c ∉ l) :
    rfind l c = -1 := by
  have h1 := neg_one_le_rfind l c
  have h2 : ¬ 0 ≤ rfind l c := fun h0 => h ((zero_le_rfind_iff l c).mp h0)
  omega

/-- Appending characters that do not contain `c` leaves `rfind` alone. -/
theorem rfind_append_right (l1 l2 : List Char) (c : Char) (h : c ∉ l2) :
    rfind (l1 ++ l2) c = rfind l1 c := by
  induction l1 with
  | nil =>
    rw [List.nil_append, rfind_of_not_mem l2 c h]
    rfl
  | cons a as ih =>
    rw [List.cons_append, rfind_cons, rfind_cons, ih]

/-- Taking a prefix that still contains the last occurrence leaves `rfind`
alone. -/
theorem rfind_take (l : List Char) (c : Char) (n : ℕ)
    (h : rfind l c < (n : ℤ)) : rfind (l.take n) c = rfind l c := by
  induction l generalizing n with
  | nil => simp
  | cons a as ih =>
    cases n with
    | zero =>
      have h1 := neg_one_le_rfind (a :: as) c
      have h2 : rfind (a :: as) c = -1 := by omega
      simp only [List.take_zero, h2]
      rfl
    | succ n =>
      simp only [List.take_succ_cons]
      rw [rfind_cons, rfind_cons] at *
      by_cases h0 : 0 ≤ rfind as c
      · rw [if_pos h0] at h
        have hn : rfind as c < (n : ℤ) := by
          push_cast at h
          omega
        rw [ih n hn, if_pos h0]
      · rw [if_neg h0]
        have hne : c ∉ as := fun hc => h0 ((zero_le_rfind_iff as c).mpr hc)
        have hnt : c ∉ as.take n :=
          fun hc => hne (List.Sublist.mem hc (List.take_sublist n as))
        have h0t : ¬ 0 ≤ rfind (as.take n) c :=
          fun hc => hnt ((zero_le_rfind_iff _ c).mp hc)
        rw [if_neg h0t]

/-- Appending a separator-free suffix does not change the directory. -/
theorem dirOf_append (p t : String) (h : '/' ∉ t.data) :
    dirOf (p ++ t) = dirOf p := by
  unfold dirOf
  rw [String.data_append, rfind_append_right _ _ _ h]
  have hlen := rfind_lt_length p.data '/'
  have hle : (rfind p.data '/' + 1).toNat ≤ p.data.length := by omega
  rw [List.take_append_of_le_length hle]

/-- Truncating a path after its last separator does not change the
directory. -/
theorem dirOf_take (p : String) (n : ℕ) (h : rfind p.data '/' < (n : ℤ)) :
    dirOf ⟨p.data.take n⟩ = dirOf p := by
  show (⟨(p.data.take n).take (rfind (p.data.take n) '/' + 1).toNat⟩ : String) =
    ⟨p.data.take (rfind p.data '/' + 1).toNat⟩
  rw [rfind_take p.data '/' n h, List.take_take]
  have h0 := neg_one_le_rfind p.data '/'
  have hle : (rfind p.data '/' + 1).toNat ≤ n := by omega
  rw [inf_eq_left.mpr hle]

/-- `splitext` is a split of the path: root and extension concatenate back
to the input. -/
theorem splitext_roundtrip (p : String) :
    (splitext p).1 ++ (splitext p).2 = p := by
  simp only [splitext]
  split
  · split
    · exact String.append_empty p
    · show (⟨p.data.take (rfind p.data '.').toNat ++
        p.data.drop (rfind p.data '.').toNat⟩ : String) = p
      rw [List.take_append_drop]
  · exact String.append_empty p

/-- The derived output path lies in the same directory as the input. -/
theorem dirOf_output_path (p : String) : dirOf (output_path p) = dirOf p := by
  have htxt : '/' ∉ (".txt" : String).data := by decide
  unfold output_path
  simp only [splitext]
  split
  · split
    · exact dirOf_append p ".txt" htxt
    · rename_i h1 h2
      rw [dirOf_append ⟨p.data.take (rfind p.data '.').toNat⟩ ".txt" htxt]
      apply dirOf_take
      have hs := neg_one_le_rfind p.data '/'
      omega
  · exact dirOf_append p ".txt" htxt

/-- C3: the output file path is the input path with its extension replaced
by `.txt` (root and extension reassemble to the input, and the output is
the root followed by `.txt`), it lies in the same directory as the input,
and a successful run writes the transcript there, silently overwriting
whatever the filesystem previously held at that path. -/
theorem output_file_contract (p : String) (hp : p ≠ "")
    (model' : String → Except String TranscriptionResult)
    (r : TranscriptionResult) (hm : model' p = Except.ok r)
    (ts : Bool) (fs : FS) :
    (splitext p).1 ++ (splitext p).2 = p ∧
    output_path p = (splitext p).1 ++ ".txt" ∧
    dirOf (output_path p) = dirOf p ∧
    fsRead (select_file_and_transcribe p model' none ts fs).1 (output_path p) =
      some (transcribe_audio ts r) := by
  refine ⟨splitext_roundtrip p, rfl, dirOf_output_path p, ?_⟩
  simp [select_file_and_transcribe, hp, transcribe_audio_file, hm, Except.map,
    fsRead, fsWrite, List.find?]

/-- Witness for C3: a `.mp3` input maps to the sibling `.txt` path, and an
existing file there is overwritten by the transcript. -/
theorem output_file_contract_witness :
    fsRead (select_file_and_transcribe "/home/u/audio.mp3"
        (fun _ => Except.ok ⟨"x", none⟩) none false
        [("/home/u/audio.txt", "old")]).1 "/home/u/audio.txt" = some "x" := by
  have h := (output_file_contract "/home/u/audio.mp3" (by decide)
    (fun _ => Except.ok ⟨"x", none⟩) ⟨"x", none⟩ rfl false
    [("/home/u/audio.txt", "old")]).2.2.2
  have e1 : output_path "/home/u/audio.mp3" = "/home/u/audio.txt" := by decide
  have e2 : transcribe_audio false ⟨"x", none⟩ = "x" := rfl
  rw [e1, e2] at h
  exact h
